import Mathlib

/-
Verification of the mouse-to-gamepad input pipeline in src/main.py.

The pipeline is embedded shallowly: floats become exact rationals, the
per-tick body of control_loop becomes a pure state-transition function,
the asynchronous raw-input writes and the once-per-tick drain become an
explicit event trace (the Python lock makes each write and each drain
atomic, so an arbitrary interleaving is an arbitrary event list), and
the scipy interpolant becomes a function parameter of type
Rat to Option Rat, where a none result models an evaluation exception.
-/

namespace MouseMove

/-- Interpolant type: evaluation at a point may fail, which models the
exception path of the spline evaluation in apply_response_curve. -/
abbrev Interp := ℚ → Option ℚ

/-- Piecewise linear interpolation through a list of control points,
extrapolating with the first and last segment, as the linear fallback
interpolant does when built with extrapolation enabled. -/
def linearInterp : List (ℚ × ℚ) → ℚ → ℚ
  | [], _ => 0
  | [p], _ => p.2
  | [p, q], x => p.2 + (x - p.1) * (q.2 - p.2) / (q.1 - p.1)
  | p :: q :: r :: rest, x =>
      if x ≤ q.1 then p.2 + (x - p.1) * (q.2 - p.2) / (q.1 - p.1)
      else linearInterp (q :: r :: rest) x

/-- Translation of update_spline from src/main.py lines 750 to 761.
The cubic interpolant construction is an external library call, so it is
passed in as build; a none result models the constructor raising, in
which case the code builds the linear interpolant instead.  With fewer
than two control points the body is skipped entirely and the previously
stored interpolant, old, is kept. -/
def update_spline (build : List (ℚ × ℚ) → Option Interp)
    (pts : List (ℚ × ℚ)) (old : Option Interp) : Option Interp :=
  if 2 ≤ pts.length then
    match build pts with
    | some c => some c
    | none => some (fun x => some (linearInterp pts x))
  else old

/-- Translation of apply_response_curve from src/main.py lines 853 to 871.
A deadzone test on the absolute value, renormalization of the remaining
range, spline evaluation clamped to the unit interval with fallback to
the normalized value when the spline is absent or its evaluation fails,
and reapplication of the sign. -/
def apply_response_curve (deadzone : ℚ) (spline : Option Interp) (value : ℚ) : ℚ :=
  if |value| < deadzone then 0
  else
    (if 0 ≤ value then (1 : ℚ) else -1) *
      (match spline with
       | some f =>
         match f ((|value| - deadzone) / (1 - deadzone)) with
         | some r => max 0 (min 1 r)
         | none => (|value| - deadzone) / (1 - deadzone)
       | none => (|value| - deadzone) / (1 - deadzone))

/-- Mathematical signum on the rationals. -/
def qsign (x : ℚ) : ℚ := if x < 0 then -1 else if x = 0 then 0 else 1

/-- Default control points of the source, the identity diagonal. -/
def idPts : List (ℚ × ℚ) :=
  [(0, 0), (1/4, 1/4), (1/2, 1/2), (3/4, 3/4), (1, 1)]

/-- Linear interpolant through the identity control points, wrapped as a
total interpolant. -/
def slin : Interp := fun x => some (linearInterp idPts x)

/-- Stale interpolant used to exhibit the behaviour of update_spline when
fewer than two control points are supplied: it returns nine tenths
everywhere. -/
def staleF : Interp := fun _ => some (9/10)

/-- Outside the deadzone the curve output is the stated sign times a
nonnegative magnitude, provided the deadzone is below one. -/
lemma curve_shape (dz : ℚ) (s : Option Interp) (v : ℚ) (hdz : dz < 1) :
    apply_response_curve dz s v = 0 ∨
      ∃ r : ℚ, 0 ≤ r ∧
        apply_response_curve dz s v = (if 0 ≤ v then (1 : ℚ) else -1) * r := by
  unfold apply_response_curve
  by_cases h : |v| < dz
  · left
    simp [h]
  · right
    have hvd : dz ≤ |v| := not_lt.mp h
    have hn0 : 0 ≤ (|v| - dz) / (1 - dz) :=
      div_nonneg (by linarith) (by linarith)
    rw [if_neg h]
    cases s with
    | none => exact ⟨(|v| - dz) / (1 - dz), hn0, rfl⟩
    | some f =>
      dsimp only
      cases hf : f ((|v| - dz) / (1 - dz)) with
      | none => exact ⟨(|v| - dz) / (1 - dz), hn0, rfl⟩
      | some r => exact ⟨max 0 (min 1 r), le_max_left _ _, rfl⟩

/-- Inputs inside the deadzone map to exactly zero. -/
lemma curve_deadzone_zero (dz : ℚ) (s : Option Interp) (v : ℚ)
    (h : |v| < dz) : apply_response_curve dz s v = 0 := by
  simp [apply_response_curve, h]

/-- C5: every input whose absolute value is below the deadzone maps to
exactly zero; and when the deadzone is zero and the interpolant sends one
to one, as the identity linear curve with endpoints at the origin and at
one does, an input of absolute value one maps to output magnitude one. -/
theorem curve_deadzone_unit :
    (∀ (dz : ℚ) (s : Option Interp) (v : ℚ), |v| < dz →
        apply_response_curve dz s v = 0) ∧
      (∀ (f : Interp) (v : ℚ), |v| = 1 → f 1 = some 1 →
        |apply_response_curve 0 (some f) v| = 1) := by
  constructor
  · exact curve_deadzone_zero
  · intro f v hv hf
    unfold apply_response_curve
    rw [hv]
    have h1 : ¬(1 : ℚ) < 0 := by norm_num
    rw [if_neg h1]
    have harg : ((1 : ℚ) - 0) / (1 - 0) = 1 := by norm_num
    rw [harg]
    dsimp only
    rw [hf]
    have hmin : min (1 : ℚ) 1 = 1 := min_self 1
    have hmax : max (0 : ℚ) 1 = 1 := by norm_num
    dsimp only
    rw [hmin, hmax]
    by_cases hv0 : 0 ≤ v
    · rw [if_pos hv0]
      norm_num
    · rw [if_neg hv0]
      norm_num

/-- C5 witness: with the default deadzone of one twentieth, an input of
one twenty-fifth maps to zero, and with deadzone zero and the identity
linear curve, input one maps to magnitude one. -/
theorem curve_deadzone_unit_witness :
    apply_response_curve (1/20) (some slin) (1/25) = 0 ∧
      |apply_response_curve 0 (some slin) 1| = 1 :=
  ⟨curve_deadzone_unit.1 (1/20) (some slin) (1/25)
     (by rw [abs_lt]; constructor <;> norm_num),
   curve_deadzone_unit.2 slin 1 (by norm_num)
     (by norm_num [slin, linearInterp, idPts])⟩

/-- C6 counterexample: at the default deadzone of one twentieth, the
input minus one hundredth lies in the closed interval from minus one to
one, yet the curve output is zero, so the signum of the output differs
from the signum of the input; strict sign equality fails inside the
deadzone. -/
theorem curve_sign_cex :
    qsign (apply_response_curve (1/20) (some slin) (-(1/100))) ≠
        qsign (-(1/100) : ℚ) ∧
      (-(1/100) : ℚ) ∈ Set.Icc (-1 : ℚ) 1 := by
  constructor
  · have h0 : apply_response_curve (1/20) (some slin) (-(1/100)) = 0 := by
      apply curve_deadzone_zero
      rw [abs_neg]
      rw [abs_of_nonneg (by norm_num : (0:ℚ) ≤ 1/100)]
      norm_num
    rw [h0]
    norm_num [qsign]
  · constructor <;> norm_num

/-- C6 amended: for every deadzone below one the curve never produces an
output of sign opposite to its input, and whenever both the input and
the output are nonzero their signums agree; sign equality can only fail
through a zero output, as inside the deadzone. -/
theorem curve_weak_sign_preserving (dz : ℚ) (s : Option Interp) (v : ℚ)
    (hdz : dz < 1) :
    0 ≤ v * apply_response_curve dz s v ∧
      (v ≠ 0 → apply_response_curve dz s v ≠ 0 →
        qsign (apply_response_curve dz s v) = qsign v) := by
  rcases curve_shape dz s v hdz with h | ⟨r, hr, h⟩
  · rw [h]
    refine ⟨by simp, fun _ hne => absurd rfl hne⟩
  · rw [h]
    by_cases hv : 0 ≤ v
    · rw [if_pos hv]
      rw [one_mul]
      refine ⟨mul_nonneg hv hr, fun hv0 hne => ?_⟩
      have hvpos : 0 < v := lt_of_le_of_ne hv (Ne.symm hv0)
      have hrpos : 0 < r := lt_of_le_of_ne hr (fun hc => hne hc.symm)
      simp [qsign, not_lt.mpr hr, not_lt.mpr hv, hne, fun hc : v = 0 => hv0 hc]
    · rw [if_neg hv]
      push_neg at hv
      constructor
      · have : v * (-1 * r) = -v * r := by ring
        rw [this]
        exact mul_nonneg (by linarith) hr
      · intro _ hne
        have hrpos : 0 < r := by
          rcases lt_or_eq_of_le hr with h1 | h1
          · exact h1
          · exact absurd (by rw [← h1]; ring) hne
        have hneg : -1 * r < 0 := by nlinarith
        show qsign (-1 * r) = qsign v
        unfold qsign
        rw [if_pos hneg, if_pos hv]

/-- C6 amended witness: with deadzone zero, the identity linear curve and
the input one half, the product of input and output is nonnegative and
the signums agree. -/
theorem curve_weak_sign_witness :
    0 ≤ (1/2 : ℚ) * apply_response_curve 0 (some slin) (1/2) ∧
      qsign (apply_response_curve 0 (some slin) (1/2)) = qsign (1/2 : ℚ) :=
  ⟨(curve_weak_sign_preserving 0 (some slin) (1/2) (by norm_num)).1,
   (curve_weak_sign_preserving 0 (some slin) (1/2) (by norm_num)).2
     (by norm_num)
     (by
       have h2 : |(1/2 : ℚ)| = 1/2 := abs_of_nonneg (by norm_num)
       norm_num [apply_response_curve, slin, linearInterp, idPts, h2])⟩

/-- C7 counterexample: with a single control point, update_spline keeps
the previously stored interpolant instead of falling back to linear
interpolation between the nearest points: the stale curve, constantly
nine tenths, is still evaluated afterwards, although linear
interpolation of the single point would give one half and the identity
would give the input one quarter. -/
theorem spline_fallback_cex :
    update_spline (fun _ => none) [((1:ℚ)/2, (1:ℚ)/2)] (some staleF) =
        some staleF ∧
      apply_response_curve 0 (some staleF) (1/4) = 9/10 ∧
      linearInterp [((1:ℚ)/2, (1:ℚ)/2)] (1/4) = 1/2 ∧
      (9:ℚ)/10 ≠ 1/2 ∧ (9:ℚ)/10 ≠ 1/4 := by
  refine ⟨rfl, ?_, rfl, by norm_num, by norm_num⟩
  have h4 : |(1/4 : ℚ)| = 1/4 := abs_of_nonneg (by norm_num)
  norm_num [apply_response_curve, staleF, h4]

/-- C7 amended: curve evaluation is total and degrades instead of
failing, but the degenerate branch differs from the claim: with fewer
than two control points update_spline keeps the previous interpolant
unchanged; with at least two points and a failing cubic construction it
falls back to the linear interpolant; with a successful construction it
installs the built interpolant; and when the interpolant is absent or
its evaluation fails, apply_response_curve uses the identity mapping on
the normalized magnitude. -/
theorem spline_fallback_chain :
    (∀ (b : List (ℚ × ℚ) → Option Interp) (pts : List (ℚ × ℚ))
        (old : Option Interp), pts.length < 2 → update_spline b pts old = old) ∧
      (∀ (b : List (ℚ × ℚ) → Option Interp) (pts : List (ℚ × ℚ))
        (old : Option Interp), 2 ≤ pts.length → b pts = none →
          update_spline b pts old = some (fun x => some (linearInterp pts x))) ∧
      (∀ (b : List (ℚ × ℚ) → Option Interp) (pts : List (ℚ × ℚ))
        (old : Option Interp) (c : Interp), 2 ≤ pts.length → b pts = some c →
          update_spline b pts old = some c) ∧
      (∀ (dz v : ℚ) (f : Interp), f ((|v| - dz) / (1 - dz)) = none →
        apply_response_curve dz (some f) v = apply_response_curve dz none v) := by
  refine ⟨?_, ?_, ?_, ?_⟩
  · intro b pts old h
    unfold update_spline
    rw [if_neg (not_le.mpr h)]
  · intro b pts old h hb
    unfold update_spline
    rw [if_pos h, hb]
  · intro b pts old c h hb
    unfold update_spline
    rw [if_pos h, hb]
  · intro dz v f hf
    unfold apply_response_curve
    by_cases h : |v| < dz
    · rw [if_pos h, if_pos h]
    · rw [if_neg h, if_neg h]
      dsimp only
      rw [hf]

/-- C7 amended witness: an empty point list keeps the absent interpolant,
a failing cubic build over the identity points yields the linear
interpolant, a successful build installs the built interpolant, and a
failing evaluation behaves like the absent interpolant. -/
theorem spline_fallback_chain_witness :
    update_spline (fun _ => none) ([] : List (ℚ × ℚ)) none = none ∧
      update_spline (fun _ => none) idPts (some staleF) =
        some (fun x => some (linearInterp idPts x)) ∧
      update_spline (fun _ => some staleF) idPts none = some staleF ∧
      apply_response_curve 0 (some (fun _ => none)) (1/2) =
        apply_response_curve 0 none (1/2) :=
  ⟨spline_fallback_chain.1 (fun _ => none) [] none (by norm_num),
   spline_fallback_chain.2.1 (fun _ => none) idPts (some staleF)
     (by norm_num [idPts]) rfl,
   spline_fallback_chain.2.2.1 (fun _ => some staleF) idPts none staleF
     (by norm_num [idPts]) rfl,
   spline_fallback_chain.2.2.2 0 (1/2) (fun _ => none) rfl⟩

/-- Per-tick configuration snapshot: the slider values, per-axis flags
and the current interpolant, read once per tick by control_loop. -/
structure Cfg where
  sens : ℚ
  decay : ℚ
  dz : ℚ
  smoothing : ℚ
  x_en : Bool
  y_en : Bool
  inv_x : Bool
  inv_y : Bool
  spline : Option Interp

/-- Mutable pipeline state of the application object: the running and
paused flags, the two axis accumulators, the two smoothing buffers, the
raw delta accumulator pair, and the pair last written to the virtual
gamepad. -/
structure St where
  running : Bool
  paused : Bool
  raw_x : ℚ
  raw_y : ℚ
  smooth_x : ℚ
  smooth_y : ℚ
  acc_dx : ℤ
  acc_dy : ℤ
  pad : ℚ × ℚ

/-- Initial state of the application: stopped, all values zero. -/
def initSt : St :=
  { running := false, paused := false, raw_x := 0, raw_y := 0,
    smooth_x := 0, smooth_y := 0, acc_dx := 0, acc_dy := 0, pad := (0, 0) }

/-- X axis block of the control loop, src/main.py lines 1009 to 1020:
integrate the drained delta scaled by sensitivity and the fixed constant
one twenty-thousandth, multiply by the decay rate, clamp to the unit
interval, shape through the response curve and apply the inversion flag;
a disabled axis forces both the accumulator and the output to zero.
Returns the new accumulator and the shaped output. -/
def axisStepX (c : Cfg) (raw : ℚ) (dx : ℤ) : ℚ × ℚ :=
  if c.x_en then
    let r := max (-1) (min 1 ((raw + (dx : ℚ) * c.sens * (1/20000)) * c.decay))
    let j := apply_response_curve c.dz c.spline r
    (r, if c.inv_x then -j else j)
  else (0, 0)

/-- Y axis block of the control loop, src/main.py lines 1022 to 1032:
identical to the X block except that the accumulator is negated before
the response curve is applied. -/
def axisStepY (c : Cfg) (raw : ℚ) (dy : ℤ) : ℚ × ℚ :=
  if c.y_en then
    let r := max (-1) (min 1 ((raw + (dy : ℚ) * c.sens * (1/20000)) * c.decay))
    let j := apply_response_curve c.dz c.spline (-r)
    (r, if c.inv_y then -j else j)
  else (0, 0)

/-- Active tick of control_loop, src/main.py lines 1002 to 1039: drain
the delta accumulator, run both axis blocks, apply exponential smoothing
as in apply_smoothing, and write the smoothed pair to the gamepad. -/
def activeTick (c : Cfg) (s : St) : St :=
  let px := axisStepX c s.raw_x s.acc_dx
  let py := axisStepY c s.raw_y s.acc_dy
  let sx := s.smooth_x * c.smoothing + px.2 * (1 - c.smoothing)
  let sy := s.smooth_y * c.smoothing + py.2 * (1 - c.smoothing)
  { s with
    acc_dx := 0
    acc_dy := 0
    raw_x := px.1
    raw_y := py.1
    smooth_x := sx
    smooth_y := sy
    pad := (sx, sy) }

/-- Translation of stop_control, src/main.py lines 927 to 945: clear the
running flag, zero the gamepad, and reset the two smoothing buffers.
The axis accumulators raw_x and raw_y are not touched there. -/
def stop_control (s : St) : St :=
  { s with running := false, smooth_x := 0, smooth_y := 0, pad := (0, 0) }

/-- Translation of toggle_pause, src/main.py lines 947 to 972: a no-op
when stopped; otherwise flip the paused flag, and on entering the paused
state zero the gamepad immediately. -/
def toggle_pause (s : St) : St :=
  if s.running = true then
    if s.paused = true then { s with paused := false }
    else { s with paused := true, pad := (0, 0) }
  else s

/-- Translation of toggle_control, src/main.py lines 902 to 925: when
stopped it starts the pipeline, setting running and clearing paused;
when running it delegates to stop_control. -/
def toggle_control (s : St) : St :=
  if s.running = true then stop_control s
  else { s with running := true, paused := false }

/-- Events of the system: an asynchronous raw-input delta write, one
iteration of the control loop under a configuration snapshot, the pause
toggle command, and the start or stop toggle command.  The Python lock
and the tk event queue make each of these atomic with respect to the
state, so a concurrent execution is an arbitrary list of events. -/
inductive Ev where
  | write (dx dy : ℤ)
  | tick (c : Cfg)
  | pauseCmd
  | toggleCmd

/-- Single transition of the system for one event.  A tick while paused
only drains and discards the delta accumulator, as in src/main.py lines
1040 to 1042; a tick while stopped does nothing because the loop has
exited. -/
def stepEv (s : St) : Ev → St
  | .write dx dy => { s with acc_dx := s.acc_dx + dx, acc_dy := s.acc_dy + dy }
  | .tick c =>
      if s.running = true then
        if s.paused = true then { s with acc_dx := 0, acc_dy := 0 }
        else activeTick c s
      else s
  | .pauseCmd => toggle_pause s
  | .toggleCmd => toggle_control s

/-- Execution of an event trace from a starting state. -/
def runEv (evs : List Ev) (s : St) : St := evs.foldl stepEv s

/-- Invariant of C1: whenever the pipeline is paused or stopped, the pair
last written to the gamepad is the origin. -/
def padInv (s : St) : Prop :=
  s.paused = true ∨ s.running = false → s.pad = (0, 0)

lemma stepEv_padInv (s : St) (e : Ev) (h : padInv s) : padInv (stepEv s e) := by
  obtain ⟨run, pau, rx, ry, sx, sy, adx, ady, pd⟩ := s
  cases run <;> cases pau <;> cases e <;>
    simp_all [padInv, stepEv, toggle_pause, toggle_control, stop_control,
      activeTick]

lemma runEv_padInv (evs : List Ev) (s : St) (h : padInv s) :
    padInv (runEv evs s) := by
  induction evs generalizing s with
  | nil => exact h
  | cons e r ih => exact ih (stepEv s e) (stepEv_padInv s e h)

/-- C1: after any trace of writes, ticks, pause toggles and start or stop
commands from the initial state, if the pipeline ends paused or stopped
then the value last emitted to the gamepad is exactly the origin; since
the trace is arbitrary, every transition into such a state has already
driven the pad to zero within that same step. -/
theorem pad_zero_when_inactive (evs : List Ev)
    (h : (runEv evs initSt).paused = true ∨ (runEv evs initSt).running = false) :
    (runEv evs initSt).pad = (0, 0) :=
  runEv_padInv evs initSt (fun _ => rfl) h

/-- Configuration with the default slider values: sensitivity fifty,
decay rate seventeen twentieths, deadzone one twentieth, smoothing three
tenths, both axes enabled, no inversion, no interpolant. -/
def cfg0 : Cfg :=
  { sens := 50, decay := 17/20, dz := 1/20, smoothing := 3/10,
    x_en := true, y_en := true, inv_x := false, inv_y := false, spline := none }

/-- C1 witness: start, receive a delta, tick, then pause; the final state
is paused and its pad is the origin. -/
theorem pad_zero_when_inactive_witness :
    ((runEv [Ev.toggleCmd, Ev.write 40 (-7), Ev.tick cfg0, Ev.pauseCmd]
        initSt).paused = true ∨
      (runEv [Ev.toggleCmd, Ev.write 40 (-7), Ev.tick cfg0, Ev.pauseCmd]
        initSt).running = false) ∧
      (runEv [Ev.toggleCmd, Ev.write 40 (-7), Ev.tick cfg0, Ev.pauseCmd]
        initSt).pad = (0, 0) :=
  ⟨Or.inl rfl, pad_zero_when_inactive _ (Or.inl rfl)⟩

/-- Running state with nonzero accumulators and smoothing buffers, used
to examine stop_control. -/
def midSt : St :=
  { initSt with
    running := true
    raw_x := 1/2
    raw_y := -(1/3)
    smooth_x := 1/4
    smooth_y := 1/5 }

/-- C2 counterexample: stop_control leaves the axis accumulators raw_x
and raw_y untouched, so after stopping from a mid-deflection state they
are not all zero. -/
theorem stop_reset_cex :
    ¬((stop_control midSt).raw_x = 0 ∧ (stop_control midSt).raw_y = 0 ∧
      (stop_control midSt).smooth_x = 0 ∧ (stop_control midSt).smooth_y = 0) := by
  intro h
  exact absurd h.1 (by norm_num [stop_control, midSt, initSt])

/-- C2 amended: stop_control clears the running flag, zeroes the gamepad
and resets both smoothing buffers to zero, but it leaves both axis
accumulators raw_x and raw_y unchanged, so residual deflection does
carry into the next start. -/
theorem stop_resets_smoothing_only (s : St) :
    (stop_control s).smooth_x = 0 ∧ (stop_control s).smooth_y = 0 ∧
      (stop_control s).raw_x = s.raw_x ∧ (stop_control s).raw_y = s.raw_y ∧
      (stop_control s).pad = (0, 0) ∧ (stop_control s).running = false :=
  ⟨rfl, rfl, rfl, rfl, rfl, rfl⟩

/-- Integrator update named by the claim: add the scaled delta, multiply
by the decay rate, clamp to the closed interval from minus one to one. -/
def integratorSpec (raw : ℚ) (delta : ℤ) (sens decay : ℚ) : ℚ :=
  max (-1) (min 1 ((raw + (delta : ℚ) * sens * (1/20000)) * decay))

/-- C4: on an active tick, an enabled axis accumulator becomes exactly
clamp of the decayed sum of the old value and the scaled delta, with the
decay multiplication applied even for a zero delta, while a disabled
axis has both its accumulator and its shaped output forced to zero. -/
theorem integrator_step_form (c : Cfg) (s : St) :
    (c.x_en = true →
        (activeTick c s).raw_x = integratorSpec s.raw_x s.acc_dx c.sens c.decay) ∧
      (c.y_en = true →
        (activeTick c s).raw_y = integratorSpec s.raw_y s.acc_dy c.sens c.decay) ∧
      (c.x_en = true → s.acc_dx = 0 →
        (activeTick c s).raw_x = max (-1) (min 1 (s.raw_x * c.decay))) ∧
      (c.x_en = false →
        (activeTick c s).raw_x = 0 ∧ (axisStepX c s.raw_x s.acc_dx).2 = 0) ∧
      (c.y_en = false →
        (activeTick c s).raw_y = 0 ∧ (axisStepY c s.raw_y s.acc_dy).2 = 0) := by
  refine ⟨?_, ?_, ?_, ?_, ?_⟩
  · intro hx
    simp [activeTick, axisStepX, integratorSpec, hx]
  · intro hy
    simp [activeTick, axisStepY, integratorSpec, hy]
  · intro hx hdx
    simp [activeTick, axisStepX, hx, hdx]
  · intro hx
    simp [activeTick, axisStepX, hx]
  · intro hy
    simp [activeTick, axisStepY, hy]

/-- Running state with a nonzero X accumulator and a pending delta, used
as a concrete tick input. -/
def st1 : St :=
  { initSt with
    running := true
    raw_x := 1/5
    acc_dx := 8 }

/-- C4 witness: at the default configuration and a concrete state, the
enabled X accumulator follows the clamp formula, and the same state with
the X axis disabled yields zero accumulator and output. -/
theorem integrator_step_form_witness :
    (activeTick cfg0 st1).raw_x =
        integratorSpec st1.raw_x st1.acc_dx cfg0.sens cfg0.decay ∧
      (activeTick { cfg0 with x_en := false } st1).raw_x = 0 :=
  ⟨(integrator_step_form cfg0 st1).1 rfl,
   ((integrator_step_form { cfg0 with x_en := false } st1).2.2.2.1 rfl).1⟩

/-- C9: for the Y axis the accumulator is negated before the response
curve is applied, while the X axis is not; therefore with the inversion
flag off a positively driven Y accumulator yields a nonpositive shaped
output, strictly negative whenever it is nonzero, and the inversion flag
negates the uninverted output. -/
theorem y_axis_negation (c : Cfg) (rawx rawy : ℚ) (dx dy : ℤ) :
    (c.y_en = true → c.inv_y = false →
        (axisStepY c rawy dy).2 =
          apply_response_curve c.dz c.spline (-(axisStepY c rawy dy).1)) ∧
      (c.x_en = true → c.inv_x = false →
        (axisStepX c rawx dx).2 =
          apply_response_curve c.dz c.spline (axisStepX c rawx dx).1) ∧
      (c.y_en = true → c.inv_y = true →
        (axisStepY c rawy dy).2 =
          -(apply_response_curve c.dz c.spline (-(axisStepY c rawy dy).1))) ∧
      (c.dz < 1 → c.y_en = true → c.inv_y = false →
        0 < (axisStepY c rawy dy).1 →
        (axisStepY c rawy dy).2 ≤ 0 ∧
          ((axisStepY c rawy dy).2 ≠ 0 → (axisStepY c rawy dy).2 < 0)) := by
  refine ⟨?_, ?_, ?_, ?_⟩
  · intro hy hinv
    simp [axisStepY, hy, hinv]
  · intro hx hinv
    simp [axisStepX, hx, hinv]
  · intro hy hinv
    simp [axisStepY, hy, hinv]
  · intro hdz hy hinv hpos
    have hval : (axisStepY c rawy dy).2 =
        apply_response_curve c.dz c.spline (-(axisStepY c rawy dy).1) := by
      simp [axisStepY, hy, hinv]
    rw [hval]
    rcases curve_shape c.dz c.spline (-(axisStepY c rawy dy).1) hdz with h | ⟨q, hq, h⟩
    · rw [h]
      exact ⟨le_refl 0, fun hne => absurd rfl hne⟩
    · rw [h]
      have hneg : ¬(0 ≤ -(axisStepY c rawy dy).1) := by linarith
      rw [if_neg hneg]
      constructor
      · nlinarith
      · intro hne
        have hqpos : 0 < q := by
          rcases lt_or_eq_of_le hq with h1 | h1
          · exact h1
          · exact absurd (by rw [← h1]; ring) hne
        nlinarith

/-- C9 witness: at the default configuration, a state with a positive Y
accumulator and a large pending Y delta produces a strictly negative
uninverted Y output. -/
theorem y_axis_negation_witness :
    (axisStepY cfg0 (1/2) 1000).2 =
        apply_response_curve cfg0.dz cfg0.spline (-(axisStepY cfg0 (1/2) 1000).1) ∧
      (axisStepY cfg0 (1/2) 1000).2 < 0 := by
  have hpos : 0 < (axisStepY cfg0 (1/2) 1000).1 := by
    norm_num [axisStepY, cfg0]
  have h4 := (y_axis_negation cfg0 0 (1/2) 0 1000).2.2.2
    (by norm_num [cfg0]) rfl rfl hpos
  refine ⟨(y_axis_negation cfg0 0 (1/2) 0 1000).1 rfl rfl, h4.2 ?_⟩
  have h1 : (axisStepY cfg0 (1/2) 1000).1 = 1 := by
    norm_num [axisStepY, cfg0]
  have hv : (axisStepY cfg0 (1/2) 1000).2 =
      apply_response_curve cfg0.dz cfg0.spline (-1) := by
    rw [(y_axis_negation cfg0 0 (1/2) 0 1000).1 rfl rfl, h1]
  rw [hv]
  have habs : |(-1 : ℚ)| = 1 := by
    rw [abs_neg, abs_one]
  norm_num [apply_response_curve, cfg0, habs]

/-- Translation of the outcome of setup_raw_input, src/main.py lines 179
to 245, on the cursor_lock_supported flag: a failed device registration
sets the flag false and returns normally, and a failure while
subclassing the window procedure is caught and leaves the flag true.  No
path raises outward, since the whole body is wrapped in an exception
handler that also just clears the flag. -/
def setup_raw_input (registerOk _subclassOk : Bool) : Bool :=
  if registerOk then true else false

/-- Predicate for a loop iteration that writes to the gamepad: only a
tick taken while running and not paused emits a pair. -/
def emitsNow (s : St) : Ev → Bool
  | .tick _ => s.running && !s.paused
  | _ => false

/-- Pairs written to the gamepad along a trace. -/
def emissions : List Ev → St → List (ℚ × ℚ)
  | [], _ => []
  | e :: r, s =>
      (if emitsNow s e then [(stepEv s e).pad] else []) ++ emissions r (stepEv s e)

/-- Translation of control_loop, src/main.py lines 995 to 1048: only when
cursor locking is supported and the cursor is locked does the raw-input
loop run at all, processing its event trace and emitting per tick; in
every other case the body is skipped and the function performs a single
zero emission and returns.  The returned pair is the final state and the
list of emitted gamepad values. -/
def control_loop (supported locked : Bool) (evs : List Ev) (s : St) :
    St × List (ℚ × ℚ) :=
  if supported && locked then
    ({ runEv evs s with pad := (0, 0) }, emissions evs s ++ [(0, 0)])
  else ({ s with pad := (0, 0) }, [(0, 0)])

/-- Running state with a nonzero X accumulator, as left by a start
command. -/
def startedSt : St :=
  { initSt with
    running := true
    raw_x := 1/8 }

/-- C3 counterexample: with cursor lock unsupported, control_loop run on
a trace containing a large mouse delta and a tick emits only the single
final zero and leaves the accumulator untouched, while the same trace in
raw mode does move the accumulator; so the session with failed raw
capture performs no polled acquisition at all and the pipeline is inert,
not fallen back to polling. -/
theorem fallback_inert_cex :
    (control_loop false true [Ev.write 1000 0, Ev.tick cfg0] startedSt).2 =
        [(0, 0)] ∧
      (control_loop false true [Ev.write 1000 0, Ev.tick cfg0] startedSt).1.raw_x =
        startedSt.raw_x ∧
      (control_loop true true [Ev.write 1000 0, Ev.tick cfg0] startedSt).1.raw_x ≠
        startedSt.raw_x := by
  refine ⟨rfl, rfl, ?_⟩
  have h1 : (control_loop true true [Ev.write 1000 0, Ev.tick cfg0] startedSt).1.raw_x
      = (activeTick cfg0 (stepEv startedSt (Ev.write 1000 0))).raw_x := by
    simp [control_loop, runEv, List.foldl]
    simp [stepEv, startedSt, initSt]
  rw [h1]
  have h2 : (activeTick cfg0 (stepEv startedSt (Ev.write 1000 0))).raw_x = 1 := by
    simp [activeTick, axisStepX, stepEv, startedSt, initSt, cfg0]
    norm_num
  rw [h2]
  norm_num [startedSt, initSt]

/-- C3 amended: a failed raw-capture registration is non-fatal, it only
clears the supported flag; but the control loop contains no polled
acquisition path, so whenever raw capture is unsupported or the cursor
is not locked it skips the processing loop entirely, emits one zero pair
and returns with the state otherwise unchanged, leaving the pipeline
inert for the session. -/
theorem fallback_behavior :
    (∀ (sup lock : Bool) (evs : List Ev) (s : St), (sup && lock) = false →
        control_loop sup lock evs s = ({ s with pad := (0, 0) }, [(0, 0)])) ∧
      (∀ sub : Bool, setup_raw_input false sub = false) ∧
      (∀ sub : Bool, setup_raw_input true sub = true) := by
  refine ⟨?_, fun _ => rfl, fun _ => rfl⟩
  intro sup lock evs s h
  unfold control_loop
  rw [h]
  rfl

/-- C3 amended witness: with an unsupported cursor lock the control loop
over a nonempty trace returns the zero-padded state and the single zero
emission, and a failed registration reports false. -/
theorem fallback_behavior_witness :
    control_loop false true [Ev.write 1000 0, Ev.tick cfg0] startedSt =
        ({ startedSt with pad := (0, 0) }, [(0, 0)]) ∧
      setup_raw_input false true = false :=
  ⟨fallback_behavior.1 false true [Ev.write 1000 0, Ev.tick cfg0] startedSt rfl,
   fallback_behavior.2.1 true⟩

/-- Operations on the delta accumulator pair: an asynchronous write from
process_raw_input, src/main.py lines 298 to 335, adding the event deltas
under the lock, and a drain from get_and_clear_raw_deltas, lines 337 to
343, reading both counters and zeroing them under the same lock.  The
lock makes each operation atomic, so a concurrent history is an
arbitrary list of these operations. -/
inductive AccEv where
  | write (dx dy : ℤ)
  | drain

/-- Execution of an operation list on the accumulator pair, returning
the list of drained pairs and the final accumulator contents. -/
def drains : List AccEv → ℤ × ℤ → List (ℤ × ℤ) × (ℤ × ℤ)
  | [], a => ([], a)
  | AccEv.write dx dy :: r, a => drains r (a.1 + dx, a.2 + dy)
  | AccEv.drain :: r, a =>
      (a :: (drains r (0, 0)).1, (drains r (0, 0)).2)

/-- Total of all deltas written in an operation list. -/
def sumWrites : List AccEv → ℤ × ℤ
  | [] => (0, 0)
  | AccEv.write dx dy :: r => ((dx, dy) : ℤ × ℤ) + sumWrites r
  | AccEv.drain :: r => sumWrites r

/-- Segmentation of an operation list at the drain points: one segment
of writes per drain, in order, followed by a final segment of writes
after the last drain. -/
def segments : List AccEv → List (List AccEv)
  | [] => [[]]
  | AccEv.drain :: r => [] :: segments r
  | AccEv.write dx dy :: r =>
      match segments r with
      | [] => [[AccEv.write dx dy]]
      | st :: ss => (AccEv.write dx dy :: st) :: ss

/-- Helper adding a pair onto the head of a list of pairs, if any. -/
def addHead (a : ℤ × ℤ) : List (ℤ × ℤ) → List (ℤ × ℤ)
  | [] => []
  | x :: xs => (a + x) :: xs

lemma segments_ne_nil (evs : List AccEv) : segments evs ≠ [] := by
  cases evs with
  | nil => simp [segments]
  | cons e r =>
      cases e with
      | drain => simp [segments]
      | write dx dy =>
          cases hseg : segments r with
          | nil => simp [segments, hseg]
          | cons st ss => simp [segments, hseg]

lemma addHead_zero (l : List (ℤ × ℤ)) : addHead (0, 0) l = l := by
  cases l with
  | nil => rfl
  | cons x xs =>
      simp [addHead, Prod.ext_iff]

lemma pairAdd (a : ℤ × ℤ) (dx dy : ℤ) : (a.1 + dx, a.2 + dy) = a + (dx, dy) := by
  simp [Prod.ext_iff]

lemma drains_segments (evs : List AccEv) (a : ℤ × ℤ) :
    (drains evs a).1 = addHead a (((segments evs).dropLast).map sumWrites) := by
  induction evs generalizing a with
  | nil => simp [drains, segments, addHead]
  | cons e r ih =>
      cases e with
      | write dx dy =>
          show (drains r (a.1 + dx, a.2 + dy)).1 = _
          rw [ih]
          cases hseg : segments r with
          | nil => exact absurd hseg (segments_ne_nil r)
          | cons st ss =>
              cases ss with
              | nil => simp [segments, hseg, addHead]
              | cons s2 ss2 =>
                  simp only [segments, hseg, List.dropLast_cons₂, List.map_cons,
                    addHead]
                  congr 1
                  show (a.1 + dx, a.2 + dy) + sumWrites st =
                      a + sumWrites (AccEv.write dx dy :: st)
                  rw [pairAdd]
                  show a + (dx, dy) + sumWrites st =
                      a + ((dx, dy) + sumWrites st)
                  rw [add_assoc]
      | drain =>
          show a :: (drains r (0, 0)).1 = _
          rw [ih]
          rw [addHead_zero]
          cases hseg : segments r with
          | nil => exact absurd hseg (segments_ne_nil r)
          | cons st ss =>
              simp only [segments, hseg, List.dropLast_cons₂, List.map_cons,
                addHead]
              congr 1
              show a = a + sumWrites ([] : List AccEv)
              simp [sumWrites]

lemma drains_conserve (evs : List AccEv) (a : ℤ × ℤ) :
    ((drains evs a).1).sum + (drains evs a).2 = a + sumWrites evs := by
  induction evs generalizing a with
  | nil => simp [drains, sumWrites]
  | cons e r ih =>
      cases e with
      | write dx dy =>
          show ((drains r (a.1 + dx, a.2 + dy)).1).sum +
              (drains r (a.1 + dx, a.2 + dy)).2 = _
          rw [ih]
          rw [pairAdd]
          show a + (dx, dy) + sumWrites r = a + ((dx, dy) + sumWrites r)
          rw [add_assoc]
      | drain =>
          show (a :: (drains r (0, 0)).1).sum + (drains r (0, 0)).2 = _
          rw [List.sum_cons, add_assoc, ih]
          show a + ((0, 0) + sumWrites r) = a + sumWrites r
          have h0 : ((0, 0) : ℤ × ℤ) = 0 := rfl
          rw [h0, zero_add]

/-- C8: for every interleaving of atomic delta writes and drains starting
from the zeroed accumulator, the sequence of drained pairs is exactly
the per-segment sums of the writes since the previous drain, and the
drained pairs together with the residual accumulator account for every
write exactly once. -/
theorem accumulator_drains_exact :
    (∀ evs : List AccEv,
        (drains evs (0, 0)).1 = ((segments evs).dropLast).map sumWrites) ∧
      (∀ evs : List AccEv,
        ((drains evs (0, 0)).1).sum + (drains evs (0, 0)).2 = sumWrites evs) := by
  constructor
  · intro evs
    rw [drains_segments, addHead_zero]
  · intro evs
    rw [drains_conserve]
    have h0 : ((0, 0) : ℤ × ℤ) = 0 := rfl
    rw [h0, zero_add]

/-- Parsed settings document: each key of the JSON file may be present
with a value or absent.  Control point entries are JSON arrays of
numbers of arbitrary length. -/
structure StoredSettings where
  sensitivity : Option ℚ
  decay_rate : Option ℚ
  deadzone : Option ℚ
  smoothing : Option ℚ
  x_axis_enabled : Option Bool
  y_axis_enabled : Option Bool
  invert_x : Option Bool
  invert_y : Option Bool
  control_points : Option (List (List ℚ))

/-- Applied settings values held by the application after loading. -/
structure GuiSettings where
  sensitivity : ℚ
  decay_rate : ℚ
  deadzone : ℚ
  smoothing : ℚ
  x_axis_enabled : Bool
  y_axis_enabled : Bool
  invert_x : Bool
  invert_y : Bool
  control_points : List (ℚ × ℚ)

/-- Default settings of src/main.py lines 80 to 90. -/
def default_settings : GuiSettings where
  sensitivity := 50
  decay_rate := 17/20
  deadzone := 1/20
  smoothing := 3/10
  x_axis_enabled := true
  y_axis_enabled := true
  invert_x := false
  invert_y := false
  control_points := idPts

/-- Conversion of a two-element JSON array to a control point pair, as
the float conversions of the first and second entry do. -/
def toPair (p : List ℚ) : ℚ × ℚ := (p.headD 0, (p.drop 1).headD 0)

/-- Translation of load_settings, src/main.py lines 346 to 374: a missing
or unreadable file yields the defaults; otherwise every present key is
applied exactly as stored, with no range check, and the control point
list is accepted verbatim whenever it has at least two entries each of
length two, with no monotonicity or endpoint check. -/
def load_settings (file : Option StoredSettings) : GuiSettings :=
  match file with
  | none => default_settings
  | some st =>
      { sensitivity := st.sensitivity.getD default_settings.sensitivity
        decay_rate := st.decay_rate.getD default_settings.decay_rate
        deadzone := st.deadzone.getD default_settings.deadzone
        smoothing := st.smoothing.getD default_settings.smoothing
        x_axis_enabled := st.x_axis_enabled.getD default_settings.x_axis_enabled
        y_axis_enabled := st.y_axis_enabled.getD default_settings.y_axis_enabled
        invert_x := st.invert_x.getD default_settings.invert_x
        invert_y := st.invert_y.getD default_settings.invert_y
        control_points :=
          match st.control_points with
          | none => default_settings.control_points
          | some cps =>
              if 2 ≤ cps.length ∧ cps.all (fun p => p.length == 2) = true then
                cps.map toPair
              else default_settings.control_points }

/-- C10: load_settings applies every stored numeric value exactly as
parsed, with no clamping to the documented ranges, and accepts any
control point list of at least two two-element entries verbatim, with
no check that the inputs increase or that the endpoints are the corners
of the unit square. -/
theorem load_settings_no_validation :
    (∀ (st : StoredSettings) (v : ℚ), st.sensitivity = some v →
        (load_settings (some st)).sensitivity = v) ∧
      (∀ (st : StoredSettings) (v : ℚ), st.decay_rate = some v →
        (load_settings (some st)).decay_rate = v) ∧
      (∀ (st : StoredSettings) (v : ℚ), st.deadzone = some v →
        (load_settings (some st)).deadzone = v) ∧
      (∀ (st : StoredSettings) (v : ℚ), st.smoothing = some v →
        (load_settings (some st)).smoothing = v) ∧
      (∀ (st : StoredSettings) (cps : List (List ℚ)),
        st.control_points = some cps → 2 ≤ cps.length →
        cps.all (fun p => p.length == 2) = true →
        (load_settings (some st)).control_points = cps.map toPair) := by
  refine ⟨?_, ?_, ?_, ?_, ?_⟩
  · intro st v h
    simp [load_settings, h]
  · intro st v h
    simp [load_settings, h]
  · intro st v h
    simp [load_settings, h]
  · intro st v h
    simp [load_settings, h]
  · intro st cps h hlen hall
    simp only [load_settings, h]
    rw [if_pos ⟨hlen, hall⟩]

/-- Stored settings with every numeric value outside its documented
range and a control point list whose inputs decrease and whose endpoints
are not the unit square corners. -/
def badStored : StoredSettings where
  sensitivity := some 1000
  decay_rate := some 5
  deadzone := some (3/2)
  smoothing := some 2
  x_axis_enabled := none
  y_axis_enabled := none
  invert_x := none
  invert_y := none
  control_points := some [[1, 1], [1/2, 1/4]]

/-- C10 witness: the out-of-range values one thousand, five, three halves
and two are applied verbatim, and the decreasing control point list is
accepted and converted pairwise. -/
theorem load_settings_no_validation_witness :
    (load_settings (some badStored)).sensitivity = 1000 ∧
      (load_settings (some badStored)).decay_rate = 5 ∧
      (load_settings (some badStored)).deadzone = 3/2 ∧
      (load_settings (some badStored)).smoothing = 2 ∧
      (load_settings (some badStored)).control_points =
        [[(1:ℚ), 1], [1/2, 1/4]].map toPair :=
  ⟨load_settings_no_validation.1 badStored 1000 rfl,
   load_settings_no_validation.2.1 badStored 5 rfl,
   load_settings_no_validation.2.2.1 badStored (3/2) rfl,
   load_settings_no_validation.2.2.2.1 badStored 2 rfl,
   load_settings_no_validation.2.2.2.2 badStored [[1, 1], [1/2, 1/4]] rfl
     (by norm_num) (by norm_num)⟩

end MouseMove
